import Mathlib

/-!
# Verification of the execution-runtime-lab decision core

A shallow embedding of the verdict-gated execution-capability core of the
repository:

* `integrations/openclaw/decision_engine.ts` — `evaluateDecision`,
  `calculateRiskScore`, `computeDecisionHash`, the static policy tables;
* `integrations/openclaw/openclaw_adapter.ts` — `receiveToolCall`,
  `extractResource`;
* `src/types/execution_capability.ts` — the `DecisionResult` capability union;
* `src/adapter/stop_handler.ts`, `src/adapter/hold_handler.ts`,
  `src/adapter/allow_handler.ts`, `src/executor/executor.ts`;
* `proof/openclaw_intercept/decision_logger.ts` — `logOpenClawDecision`;
* `proof/decision_logger.ts` — `DecisionLogger.logDecision`;
* `proof/generate_proof_artifact.ts` — `ProofArtifactGenerator.generateManifest`.

Modelling conventions:

* JavaScript maps `Record<string, any>` are modelled as association lists of
  string keys to string values (`Args`); all inputs exercised by the spec's
  scenarios carry string-valued arguments, and no claim depends on other
  value shapes.
* `JSON.stringify` on such a map is modelled by `jsonStringifyArgs`, which
  produces the same text JavaScript produces for maps whose keys and values
  contain no JSON-escapable characters (quotes, backslashes, control
  characters); every substring test of the risk classifier and every concrete
  input below is within this fragment.
* `Date.now()` is passed in explicitly as a `ts : Nat` parameter; a single
  dispatch uses one instant, matching the source where the engine reads the
  clock once per evaluation.
* The SHA-256 digest is kept abstract: every definition that hashes is
  parameterised by `hashFn : String → String` applied to exactly the payload
  string the source hashes.  No claim below depends on properties of SHA-256
  itself, only on which payload is hashed.
* Asynchronous functions are sequential in the source (each `await` chains);
  they are modelled as pure state-passing functions threading the append-only
  decision log explicitly, so "A happens before B returns" becomes "the log
  returned by B already contains A's record".
-/

namespace ExecRuntimeLab

/-- Association-list model of a JavaScript `Record<string, any>` argument map. -/
def Args : Type := List (String × String)

instance : DecidableEq Args := by
  unfold Args
  infer_instance

/-- `metadata` field of `DecisionInput` / `OpenClawToolCall`. -/
structure Metadata where
  source : String
  timestamp : Nat
  session_id : Option String
deriving DecidableEq

/-- `DecisionInput` from decision_engine.ts. -/
structure DecisionInput where
  action : String
  resource : String
  arguments : Args
  metadata : Metadata
deriving DecidableEq

/-- The closed verdict enumeration from decision_engine.ts / execution_capability.ts. -/
inductive Verdict where
  | STOP
  | HOLD
  | ALLOW
deriving DecidableEq

/-- String form of a verdict, as the source embeds it into hashed payloads. -/
def Verdict.str : Verdict → String
  | .STOP => "STOP"
  | .HOLD => "HOLD"
  | .ALLOW => "ALLOW"

/-- `Decision` record returned by `evaluateDecision`. -/
structure Decision where
  verdict : Verdict
  reason : String
  risk_score : Nat
  decision_hash : String
  timestamp : Nat
deriving DecidableEq

/-- `FORBIDDEN_ACTIONS` — the always-block table from decision_engine.ts. -/
def FORBIDDEN_ACTIONS : List String :=
  ["delete_server_files", "reverse_shell", "execute_shell", "rm_rf",
   "drop_database", "expose_secrets", "network_scan", "privilege_escalation"]

/-- `APPROVAL_REQUIRED_ACTIONS` — the approval table from decision_engine.ts. -/
def APPROVAL_REQUIRED_ACTIONS : List String :=
  ["deploy_production", "modify_database", "send_email_blast", "delete_resource"]

/-- Boolean test that `pat` is a prefix of `l` (character lists). -/
def listPrefixOf : List Char → List Char → Bool
  | [], _ => true
  | _ :: _, [] => false
  | a :: as, b :: bs => a == b && listPrefixOf as bs

/-- Boolean test that `pat` occurs contiguously inside `l` (character lists). -/
def listInfixOf : List Char → List Char → Bool
  | pat, [] => pat.isEmpty
  | pat, b :: bs => listPrefixOf pat (b :: bs) || listInfixOf pat bs

/-- JavaScript `haystack.includes(pat)` on our character-list form of strings. -/
def containsSub (hay : List Char) (pat : String) : Bool :=
  listInfixOf pat.toList hay

/-- ASCII lower-casing of one character, as `toLowerCase` acts on the
inputs of this development. -/
def lowerChar (c : Char) : Char := c.toLower

/-- JavaScript `s.toLowerCase()`, landing in the character-list world. -/
def lowerStr (s : String) : List Char := s.toList.map lowerChar

/-- JSON string quoting for the escape-free fragment (see module header). -/
def jsonQuote (s : String) : String := "\"" ++ s ++ "\""

/-- `JSON.stringify` of an argument map in the escape-free fragment:
`\x7b"k1":"v1","k2":"v2"\x7d`. -/
def jsonStringifyArgs (args : Args) : String :=
  "\x7b" ++ String.intercalate ","
    (args.map (fun kv => jsonQuote kv.1 ++ ":" ++ jsonQuote kv.2)) ++ "\x7d"

/-- Destructive-operation vocabulary test of `calculateRiskScore`
(`args.includes('rm ') || args.includes('delete') || args.includes('drop')`). -/
def destructiveHit (args : List Char) : Bool :=
  containsSub args "rm " || containsSub args "delete" || containsSub args "drop"

/-- Privilege vocabulary test of `calculateRiskScore`
(`args.includes('sudo') || args.includes('root') || args.includes('admin')`). -/
def privilegeHit (args : List Char) : Bool :=
  containsSub args "sudo" || containsSub args "root" || containsSub args "admin"

/-- Credential vocabulary test of `calculateRiskScore`
(`args.includes('password') || args.includes('secret') || args.includes('token')`). -/
def credentialHit (args : List Char) : Bool :=
  containsSub args "password" || containsSub args "secret" || containsSub args "token"

/-- Production-environment vocabulary test of `calculateRiskScore`
(`args.includes('production') || args.includes('prod')`). -/
def productionHit (args : List Char) : Bool :=
  containsSub args "production" || containsSub args "prod"

/-- Resource-criticality test of `calculateRiskScore`
(`input.resource.includes('/etc/') || input.resource.includes('system')`);
note the resource is tested as-is, not lower-cased. -/
def resourceHit (resource : String) : Bool :=
  containsSub resource.toList "/etc/" || containsSub resource.toList "system"

/-- `calculateRiskScore` from decision_engine.ts, line for line: serialize the
arguments, lower-case, test the fixed substrings (named above), add the
increments, check the resource, cap at 10. -/
def calculateRiskScore (input : DecisionInput) : Nat :=
  let args := lowerStr (jsonStringifyArgs input.arguments)
  let score := 0
  let score := if destructiveHit args then score + 3 else score
  let score := if privilegeHit args then score + 2 else score
  let score := if credentialHit args then score + 2 else score
  let score := if productionHit args then score + 1 else score
  let score := if resourceHit input.resource then score + 2 else score
  min score 10

/-- The canonical payload `computeDecisionHash` serializes before hashing:
`JSON.stringify(\x7baction, resource, arguments, verdict, timestamp\x7d)`. -/
def decisionPayload (input : DecisionInput) (verdict : String) (timestamp : Nat) : String :=
  "\x7b\"action\":" ++ jsonQuote input.action
    ++ ",\"resource\":" ++ jsonQuote input.resource
    ++ ",\"arguments\":" ++ jsonStringifyArgs input.arguments
    ++ ",\"verdict\":" ++ jsonQuote verdict
    ++ ",\"timestamp\":" ++ toString timestamp ++ "\x7d"

/-- `computeDecisionHash` from decision_engine.ts with the SHA-256 digest kept
abstract as `hashFn`. -/
def computeDecisionHash (hashFn : String → String) (input : DecisionInput)
    (verdict : String) (timestamp : Nat) : String :=
  hashFn (decisionPayload input verdict timestamp)

/-- `evaluateDecision` from decision_engine.ts: forbidden table first, then the
approval table, then the risk-score thresholds 8 (STOP) and 5 (HOLD). -/
def evaluateDecision (hashFn : String → String) (input : DecisionInput)
    (ts : Nat) : Decision :=
  if FORBIDDEN_ACTIONS.contains input.action then
    { verdict := .STOP,
      reason := "Forbidden action: " ++ input.action ++ " is categorically blocked",
      risk_score := 10,
      decision_hash := computeDecisionHash hashFn input "STOP" ts,
      timestamp := ts }
  else if APPROVAL_REQUIRED_ACTIONS.contains input.action then
    { verdict := .HOLD,
      reason := "Action " ++ input.action ++ " requires external approval",
      risk_score := 7,
      decision_hash := computeDecisionHash hashFn input "HOLD" ts,
      timestamp := ts }
  else
    let riskScore := calculateRiskScore input
    if riskScore ≥ 8 then
      { verdict := .STOP,
        reason := "Risk score " ++ toString riskScore ++ " exceeds STOP threshold (8)",
        risk_score := riskScore,
        decision_hash := computeDecisionHash hashFn input "STOP" ts,
        timestamp := ts }
    else if riskScore ≥ 5 then
      { verdict := .HOLD,
        reason := "Risk score " ++ toString riskScore ++ " requires approval (threshold 5)",
        risk_score := riskScore,
        decision_hash := computeDecisionHash hashFn input "HOLD" ts,
        timestamp := ts }
    else
      { verdict := .ALLOW,
        reason := "Action " ++ input.action ++ " approved (risk score: " ++ toString riskScore ++ ")",
        risk_score := riskScore,
        decision_hash := computeDecisionHash hashFn input "ALLOW" ts,
        timestamp := ts }

/-- `OpenClawToolCall` from openclaw_adapter.ts. -/
structure OpenClawToolCall where
  tool_name : String
  arguments : Args
  metadata : Option Metadata
deriving DecidableEq

/-- The ordered `resourceFields` list probed by `extractResource`. -/
def resourceFields : List String :=
  ["path", "file", "resource", "target", "host", "url"]

/-- JavaScript property lookup `args[field]` on the association-list model. -/
def lookupArg (args : Args) (k : String) : Option String :=
  (args.find? (fun kv => kv.1 == k)).map (fun kv => kv.2)

/-- `extractResource` from openclaw_adapter.ts: the first resource field whose
value is truthy (for string values: non-empty), else `"unknown"`. -/
def extractResource (args : Args) : String :=
  match resourceFields.findSome? (fun f =>
      match lookupArg args f with
      | some v => if v == "" then none else some v
      | none => none) with
  | some v => v
  | none => "unknown"

/-- `ExecutionContext` from executor.ts. -/
structure ExecutionContext where
  tool_name : String
  arguments : Args
  metadata : Option Metadata
deriving DecidableEq

/-- `ExecutionResult` from executor.ts (the mock result object is summarised
by its `tool_name`/`status` content). -/
structure ExecutionResult where
  success : Bool
  result : Option String
  error : Option String
  executed_at : Nat

/-- `executeAction` from executor.ts — the executor collaborator.  Its value
is paired with a one-element trace recording that the collaborator has been
reached with this context; the trace of a composite computation is the
concatenation of the traces of the collaborator calls it makes. -/
def executeAction (ts : Nat) (ctx : ExecutionContext) :
    ExecutionResult × List ExecutionContext :=
  ({ success := true, result := some (ctx.tool_name ++ ":executed"),
     error := none, executed_at := ts }, [ctx])

/-- `createExecutionFunction` from allow_execution.ts: the returned closure
performs a single awaited call of `executeAction` on the captured context. -/
def createExecutionFunction (ts : Nat) (ctx : ExecutionContext) :
    Unit → ExecutionResult × List ExecutionContext :=
  fun _ => executeAction ts ctx

/-- `DecisionResult` from execution_capability.ts: the three-variant
capability union.  Only the `allow` variant has an `execute` member; the
`stop` and `hold` variants structurally carry none (`execute?: never`). -/
inductive DecisionResult where
  | stop (proof_path : String) (decision_hash : String) (reason : String)
  | hold (proof_path : String) (decision_hash : String) (reason : String)
  | allow (proof_path : String) (decision_hash : String) (reason : String)
      (execute : Unit → ExecutionResult × List ExecutionContext)

/-- The verdict tag of a capability value. -/
def DecisionResult.verdict : DecisionResult → Verdict
  | .stop _ _ _ => .STOP
  | .hold _ _ _ => .HOLD
  | .allow _ _ _ _ => .ALLOW

/-- Probing a capability value for an `execute` member: only the `allow`
variant yields one. -/
def DecisionResult.getExecute :
    DecisionResult → Option (Unit → ExecutionResult × List ExecutionContext)
  | .allow _ _ _ f => some f
  | _ => none

/-- `proof_path` of a capability value. -/
def DecisionResult.proof_path : DecisionResult → String
  | .stop p _ _ => p
  | .hold p _ _ => p
  | .allow p _ _ _ => p

/-- `decision_hash` of a capability value. -/
def DecisionResult.decision_hash : DecisionResult → String
  | .stop _ h _ => h
  | .hold _ h _ => h
  | .allow _ h _ _ => h

/-- One line of `openclaw_decisions.jsonl`, the `OpenClawDecisionLog` record
of proof/openclaw_intercept/decision_logger.ts. -/
structure OpenClawLogEntry where
  input : DecisionInput
  decision : Decision
  intercepted : Bool
  source : String
  logged_at : Nat
deriving DecidableEq

/-- `PROOF_MANIFEST_PATH`, the path `logOpenClawDecision` returns. -/
def PROOF_MANIFEST_PATH : String := "proof_manifest.json"

/-- `logOpenClawDecision`: appends one JSONL line to the decision log and
returns the proof-artifact path.  The append-only file is the explicit
`log` state. -/
def logOpenClawDecision (entry : OpenClawLogEntry)
    (log : List OpenClawLogEntry) : String × List OpenClawLogEntry :=
  (PROOF_MANIFEST_PATH, log ++ [entry])

/-- JavaScript `decision.reason || fallback` (the reason is present but the
handler guards against an absent/empty one). -/
def reasonOr (r fallback : String) : String :=
  if r == "" then fallback else r

/-- `handleStopVerdict` from stop_handler.ts: log first (awaited), then build
the `stop` capability from the logger's return value.  No `execute` member
exists on this path. -/
def handleStopVerdict (decision : Decision) (input : DecisionInput) (ts : Nat)
    (log : List OpenClawLogEntry) : DecisionResult × List OpenClawLogEntry :=
  let r := logOpenClawDecision
    { input := input, decision := decision, intercepted := true,
      source := "openclaw_mock", logged_at := ts } log
  (.stop r.1 decision.decision_hash (reasonOr decision.reason "Execution stopped"), r.2)

/-- `handleHoldVerdict` from hold_handler.ts: log first (awaited), then build
the `hold` capability.  No `execute` member exists on this path. -/
def handleHoldVerdict (decision : Decision) (input : DecisionInput) (ts : Nat)
    (log : List OpenClawLogEntry) : DecisionResult × List OpenClawLogEntry :=
  let r := logOpenClawDecision
    { input := input, decision := decision, intercepted := true,
      source := "openclaw_mock", logged_at := ts } log
  (.hold r.1 decision.decision_hash (reasonOr decision.reason "External approval required"), r.2)

/-- `handleAllowVerdict` from allow_handler.ts: log first (awaited), then wrap
the executor collaborator via `createExecutionFunction` into the `allow`
capability. -/
def handleAllowVerdict (decision : Decision) (input : DecisionInput)
    (payload : OpenClawToolCall) (ts : Nat)
    (log : List OpenClawLogEntry) : DecisionResult × List OpenClawLogEntry :=
  let r := logOpenClawDecision
    { input := input, decision := decision, intercepted := false,
      source := "openclaw_mock", logged_at := ts } log
  let ctx : ExecutionContext :=
    { tool_name := payload.tool_name, arguments := payload.arguments,
      metadata := some { source := "openclaw", timestamp := ts, session_id := none } }
  (.allow r.1 decision.decision_hash (reasonOr decision.reason "Execution allowed")
    (createExecutionFunction ts ctx), r.2)

/-- The `DecisionInput` that `receiveToolCall` builds from an OpenClaw
payload (`metadata?.timestamp || Date.now()`: a missing or zero timestamp
falls back to the clock). -/
def toDecisionInput (payload : OpenClawToolCall) (ts : Nat) : DecisionInput :=
  { action := payload.tool_name,
    resource := extractResource payload.arguments,
    arguments := payload.arguments,
    metadata :=
      { source := "openclaw",
        timestamp := match payload.metadata with
          | some m => if m.timestamp == 0 then ts else m.timestamp
          | none => ts,
        session_id := match payload.metadata with
          | some m => m.session_id
          | none => none } }

/-- `receiveToolCall` from openclaw_adapter.ts: convert the payload, evaluate
the decision, dispatch on the verdict to the handler for that verdict. -/
def receiveToolCall (hashFn : String → String) (payload : OpenClawToolCall)
    (ts : Nat) (log : List OpenClawLogEntry) :
    DecisionResult × List OpenClawLogEntry :=
  let decisionInput := toDecisionInput payload ts
  let decision := evaluateDecision hashFn decisionInput ts
  match decision.verdict with
  | .STOP => handleStopVerdict decision decisionInput ts log
  | .HOLD => handleHoldVerdict decision decisionInput ts log
  | .ALLOW => handleAllowVerdict decision decisionInput payload ts log

/-- `'success' | 'error'` execution outcome from proof/decision_logger.ts. -/
inductive ExecOutcome where
  | success
  | error
deriving DecidableEq

/-- One line of `decision_log.jsonl` — the `Decision` record of
proof/decision_logger.ts (distinct from the engine's `Decision`). -/
structure LogRecord where
  timestamp : String
  input_sha256 : String
  policy_id : String
  decision : Verdict
  execution_attempted : Bool
  execution_result : Option ExecOutcome
deriving DecidableEq

/-- `DecisionLogger.logDecision` from proof/decision_logger.ts: the record it
constructs and appends.  `now` stands for `new Date().toISOString()` and
`hashFn` for the SHA-256 of the input.  `execution_attempted` is
`decision === 'ALLOW'`; `execution_result` is
`decision === 'ALLOW' ? (executionResult || null) : null`. -/
def logDecision (hashFn : String → String) (now : String) (input : String)
    (policyId : String) (decision : Verdict)
    (executionResult : Option ExecOutcome) : LogRecord :=
  { timestamp := now,
    input_sha256 := hashFn input,
    policy_id := policyId,
    decision := decision,
    execution_attempted := decision == .ALLOW,
    execution_result := if decision == .ALLOW then executionResult else none }

/-- The append `logDecision` performs on `decision_log.jsonl`. -/
def logDecisionAppend (hashFn : String → String) (now : String) (input : String)
    (policyId : String) (decision : Verdict)
    (executionResult : Option ExecOutcome) (log : List LogRecord) : List LogRecord :=
  log ++ [logDecision hashFn now input policyId decision executionResult]

/-- The aggregate fields of a `ProofManifest` from generate_proof_artifact.ts
(`generated_at`, `session_id`, `log_file` and the digest are carried
unchanged; the claims are about the counts and the embedded decision list). -/
structure ProofManifest where
  generated_at : String
  session_id : String
  log_file : String
  total_decisions : Nat
  stop_count : Nat
  hold_count : Nat
  allow_count : Nat
  execution_success_count : Nat
  execution_error_count : Nat
  decisions : List LogRecord
deriving DecidableEq

/-- `ProofArtifactGenerator.generateManifest` from generate_proof_artifact.ts:
each count is a `filter`/`length` over the decisions that were read; the
success/error tallies filter on `execution_result` over all entries. -/
def generateManifest (genAt sessionId logFile : String)
    (decisions : List LogRecord) : ProofManifest :=
  { generated_at := genAt,
    session_id := sessionId,
    log_file := logFile,
    total_decisions := decisions.length,
    stop_count := (decisions.filter (fun d => d.decision == .STOP)).length,
    hold_count := (decisions.filter (fun d => d.decision == .HOLD)).length,
    allow_count := (decisions.filter (fun d => d.decision == .ALLOW)).length,
    execution_success_count :=
      (decisions.filter (fun d => d.execution_result == some .success)).length,
    execution_error_count :=
      (decisions.filter (fun d => d.execution_result == some .error)).length,
    decisions := decisions }

/-- A raw OpenClaw payload as JavaScript may actually receive it: either
field may be `undefined` (modelled by `none`). -/
structure RawToolCall where
  tool_name : Option String
  arguments : Option Args
  metadata : Option Metadata
deriving DecidableEq

/-- The runtime error JavaScript raises on the malformed paths. -/
inductive JsError where
  | typeError
deriving DecidableEq

/-- `extractResource` on a possibly-missing argument map: `args[field]` with
`args === undefined` raises `TypeError` before anything else runs. -/
def extractResourceRaw : Option Args → Except JsError String
  | none => .error .typeError
  | some args => .ok (extractResource args)

/-- `list.includes(x)` where `x` may be `undefined`: `undefined` is never
equal to any string in the table. -/
def containsOpt (l : List String) : Option String → Bool
  | some a => l.contains a
  | none => false

/-- JavaScript string interpolation of a possibly-undefined value. -/
def optStr : Option String → String
  | some a => a
  | none => "undefined"

/-- `DecisionInput` as built by `receiveToolCall` from a raw payload whose
`tool_name` may be `undefined` (`arguments` is present on every path that
reaches the engine, since `extractResource` throws first otherwise). -/
structure DecisionInputRaw where
  action : Option String
  resource : String
  arguments : Args
  metadata : Metadata
deriving DecidableEq

/-- The raw input with `action := undefined` projected into the engine's view:
membership tests see `false`, interpolation sees `"undefined"`, and the risk
classifier never reads the action.  This is `evaluateDecision` run on a raw
input. -/
def evaluateDecisionRaw (hashFn : String → String) (input : DecisionInputRaw)
    (ts : Nat) : Decision :=
  let asInput : DecisionInput :=
    { action := optStr input.action, resource := input.resource,
      arguments := input.arguments, metadata := input.metadata }
  if containsOpt FORBIDDEN_ACTIONS input.action then
    { verdict := .STOP,
      reason := "Forbidden action: " ++ optStr input.action ++ " is categorically blocked",
      risk_score := 10,
      decision_hash := computeDecisionHash hashFn asInput "STOP" ts,
      timestamp := ts }
  else if containsOpt APPROVAL_REQUIRED_ACTIONS input.action then
    { verdict := .HOLD,
      reason := "Action " ++ optStr input.action ++ " requires external approval",
      risk_score := 7,
      decision_hash := computeDecisionHash hashFn asInput "HOLD" ts,
      timestamp := ts }
  else
    let riskScore := calculateRiskScore asInput
    if riskScore ≥ 8 then
      { verdict := .STOP,
        reason := "Risk score " ++ toString riskScore ++ " exceeds STOP threshold (8)",
        risk_score := riskScore,
        decision_hash := computeDecisionHash hashFn asInput "STOP" ts,
        timestamp := ts }
    else if riskScore ≥ 5 then
      { verdict := .HOLD,
        reason := "Risk score " ++ toString riskScore ++ " requires approval (threshold 5)",
        risk_score := riskScore,
        decision_hash := computeDecisionHash hashFn asInput "HOLD" ts,
        timestamp := ts }
    else
      { verdict := .ALLOW,
        reason := "Action " ++ optStr input.action ++ " approved (risk score: "
          ++ toString riskScore ++ ")",
        risk_score := riskScore,
        decision_hash := computeDecisionHash hashFn asInput "ALLOW" ts,
        timestamp := ts }

/-- One audit line written on the raw path (the input may lack its action). -/
structure RawLogEntry where
  input : DecisionInputRaw
  decision : Decision
  intercepted : Bool
  source : String
  logged_at : Nat
deriving DecidableEq

/-- `receiveToolCall` on a raw payload, tracking JavaScript's dynamic
semantics at malformed inputs: a missing `arguments` raises `TypeError`
inside `extractResource`, before classification and before any audit write;
a missing `tool_name` flows through as `undefined` and is evaluated and
audited like any unlisted action.  The second component is the audit log
after the call (unchanged when the call raised).  Since each of the three
handlers appends its entry before building its capability variant, the append
is factored once in front of the verdict match. -/
def receiveToolCallRaw (hashFn : String → String) (payload : RawToolCall)
    (ts : Nat) (log : List RawLogEntry) :
    Except JsError DecisionResult × List RawLogEntry :=
  match extractResourceRaw payload.arguments with
  | .error e => (.error e, log)
  | .ok resource =>
    let args := match payload.arguments with
      | some a => a
      | none => []
    let decisionInput : DecisionInputRaw :=
      { action := payload.tool_name,
        resource := resource,
        arguments := args,
        metadata :=
          { source := "openclaw",
            timestamp := match payload.metadata with
              | some m => if m.timestamp == 0 then ts else m.timestamp
              | none => ts,
            session_id := match payload.metadata with
              | some m => m.session_id
              | none => none } }
    let decision := evaluateDecisionRaw hashFn decisionInput ts
    let entry : RawLogEntry :=
      { input := decisionInput, decision := decision,
        intercepted := decision.verdict != .ALLOW,
        source := "openclaw_mock", logged_at := ts }
    let log' := log ++ [entry]
    let result : DecisionResult :=
      match decision.verdict with
      | .STOP =>
        .stop PROOF_MANIFEST_PATH decision.decision_hash
          (reasonOr decision.reason "Execution stopped")
      | .HOLD =>
        .hold PROOF_MANIFEST_PATH decision.decision_hash
          (reasonOr decision.reason "External approval required")
      | .ALLOW =>
        .allow PROOF_MANIFEST_PATH decision.decision_hash
          (reasonOr decision.reason "Execution allowed")
          (createExecutionFunction ts
            { tool_name := optStr payload.tool_name, arguments := args,
              metadata := some { source := "openclaw", timestamp := ts, session_id := none } })
    (.ok result, log')

/-- Reference verdict rule, stated from the spec's words (§4.2/§8): block list
forces STOP; else approval list forces HOLD; else the risk score alone decides
with score ≥ 8 → STOP, 5 ≤ score < 8 → HOLD, score < 5 → ALLOW. -/
def specVerdict (input : DecisionInput) : Verdict :=
  if FORBIDDEN_ACTIONS.contains input.action then .STOP
  else if APPROVAL_REQUIRED_ACTIONS.contains input.action then .HOLD
  else if calculateRiskScore input ≥ 8 then .STOP
  else if 5 ≤ calculateRiskScore input then .HOLD
  else .ALLOW

/-- Reference risk sum, stated from the spec's words (§4.1): one additive
increment per category — destructive vocabulary +3, privilege vocabulary +2,
credential vocabulary +2, production-environment vocabulary +1, protected-path
marker in the resource +2 — each firing when the corresponding substring
appears in the lower-cased serialization of the arguments (or in the
resource). -/
def specRiskSum (input : DecisionInput) : Nat :=
  let args := lowerStr (jsonStringifyArgs input.arguments)
  (if destructiveHit args then 3 else 0)
  + (if privilegeHit args then 2 else 0)
  + (if credentialHit args then 2 else 0)
  + (if productionHit args then 1 else 0)
  + (if resourceHit input.resource then 2 else 0)

/-- C2: for every proposal, the verdict returned by `evaluateDecision` equals
the reference rule: block-listed actions give STOP regardless of arguments;
otherwise approval-listed actions give HOLD; otherwise the risk score alone
decides, with score ≥ 8 → STOP, 5 ≤ score < 8 → HOLD, score < 5 → ALLOW. -/
theorem evaluateDecision_matches_specVerdict (hashFn : String → String)
    (input : DecisionInput) (ts : Nat) :
    (evaluateDecision hashFn input ts).verdict = specVerdict input := by
  by_cases h1 : input.action ∈ FORBIDDEN_ACTIONS
  · simp [evaluateDecision, specVerdict, h1]
  · by_cases h2 : input.action ∈ APPROVAL_REQUIRED_ACTIONS
    · simp [evaluateDecision, specVerdict, h1, h2]
    · by_cases h3 : 8 ≤ calculateRiskScore input
      · simp [evaluateDecision, specVerdict, h1, h2, h3]
      · by_cases h4 : 5 ≤ calculateRiskScore input
        · simp [evaluateDecision, specVerdict, h1, h2, h3, h4]
        · simp [evaluateDecision, specVerdict, h1, h2, h3, h4]

/-- C3: the risk classifier is a total function on proposals whose score is
the additive category sum of the spec (destructive +3, privilege +2,
credential +2, production +1, protected resource +2, each firing on a
substring hit in the lower-cased argument serialization or in the resource)
capped at 10, and the result always lies in 0..10. -/
theorem calculateRiskScore_eq_capped_sum (input : DecisionInput) :
    calculateRiskScore input = min (specRiskSum input) 10 ∧
    calculateRiskScore input ≤ 10 := by
  have h : calculateRiskScore input = min (specRiskSum input) 10 := by
    simp only [calculateRiskScore, specRiskSum]
    cases destructiveHit (lowerStr (jsonStringifyArgs input.arguments)) <;>
      cases privilegeHit (lowerStr (jsonStringifyArgs input.arguments)) <;>
      cases credentialHit (lowerStr (jsonStringifyArgs input.arguments)) <;>
      cases productionHit (lowerStr (jsonStringifyArgs input.arguments)) <;>
      cases resourceHit input.resource <;> simp
  exact ⟨h, by rw [h]; exact Nat.min_le_right _ _⟩

/-- C10: a block-listed action always reports risk score exactly 10 and an
approval-listed (non-blocked) action always reports exactly 7, regardless of
arguments and resource — list-matched actions get a fixed constant, not a
classification of their arguments. -/
theorem listMatched_actions_fixed_scores (hashFn : String → String)
    (input : DecisionInput) (ts : Nat) :
    (input.action ∈ FORBIDDEN_ACTIONS →
      (evaluateDecision hashFn input ts).risk_score = 10) ∧
    (input.action ∉ FORBIDDEN_ACTIONS →
      input.action ∈ APPROVAL_REQUIRED_ACTIONS →
      (evaluateDecision hashFn input ts).risk_score = 7) := by
  constructor
  · intro h
    simp [evaluateDecision, h]
  · intro h1 h2
    simp [evaluateDecision, h1, h2]

/-- Concrete block-listed dispatch for the C10 witness. -/
def inputForbW : DecisionInput :=
  { action := "rm_rf", resource := "unknown", arguments := [("target", "/srv")],
    metadata := { source := "openclaw", timestamp := 1, session_id := none } }

/-- Concrete approval-listed dispatch for the C10 witness. -/
def inputApprW : DecisionInput :=
  { action := "deploy_production", resource := "unknown", arguments := [],
    metadata := { source := "openclaw", timestamp := 1, session_id := none } }

/-- Witness for C10 at the block-listed action `rm_rf` and the
approval-listed action `deploy_production`. -/
theorem listMatched_actions_fixed_scores_witness :
    (evaluateDecision id inputForbW 0).risk_score = 10 ∧
    (evaluateDecision id inputApprW 0).risk_score = 7 :=
  ⟨(listMatched_actions_fixed_scores id inputForbW 0).1 (by decide),
   (listMatched_actions_fixed_scores id inputApprW 0).2 (by decide) (by decide)⟩

/-- C5: in every record written by `DecisionLogger.logDecision`,
`execution_attempted` is true if and only if the decision is ALLOW; for STOP
and HOLD records it is false. -/
theorem logDecision_execution_attempted_iff_allow (hashFn : String → String)
    (now input policyId : String) (decision : Verdict)
    (executionResult : Option ExecOutcome) :
    ((logDecision hashFn now input policyId decision executionResult).execution_attempted
        = true ↔ decision = .ALLOW) ∧
    ((decision = .STOP ∨ decision = .HOLD) →
      (logDecision hashFn now input policyId decision executionResult).execution_attempted
        = false) := by
  cases decision <;> simp [logDecision]

/-- Witness for C5 at concrete STOP, HOLD and ALLOW records. -/
theorem logDecision_execution_attempted_iff_allow_witness :
    (logDecision id "t0" "in0" "policy-v1" .STOP none).execution_attempted = false ∧
    (logDecision id "t1" "in1" "policy-v1" .HOLD none).execution_attempted = false ∧
    ((logDecision id "t2" "in2" "policy-v1" .ALLOW (some .success)).execution_attempted
       = true ↔ Verdict.ALLOW = Verdict.ALLOW) :=
  ⟨(logDecision_execution_attempted_iff_allow id "t0" "in0" "policy-v1" .STOP none).2
      (Or.inl rfl),
   (logDecision_execution_attempted_iff_allow id "t1" "in1" "policy-v1" .HOLD none).2
      (Or.inr rfl),
   (logDecision_execution_attempted_iff_allow id "t2" "in2" "policy-v1" .ALLOW
      (some .success)).1⟩

/-- The risk score `evaluateDecision` reports, as a function of the proposal
alone (helper characterization used by several theorems below). -/
def reportedScore (input : DecisionInput) : Nat :=
  if FORBIDDEN_ACTIONS.contains input.action then 10
  else if APPROVAL_REQUIRED_ACTIONS.contains input.action then 7
  else calculateRiskScore input

/-- Helper: every field of the decision other than the reason is a function
of the proposal alone, except the timestamp and the hash, which depend on the
instant only through the hashed payload's timestamp component. -/
theorem evaluateDecision_fields (hashFn : String → String)
    (input : DecisionInput) (t : Nat) :
    (evaluateDecision hashFn input t).verdict = specVerdict input ∧
    (evaluateDecision hashFn input t).risk_score = reportedScore input ∧
    (evaluateDecision hashFn input t).decision_hash =
      computeDecisionHash hashFn input (specVerdict input).str t ∧
    (evaluateDecision hashFn input t).timestamp = t := by
  by_cases h1 : input.action ∈ FORBIDDEN_ACTIONS
  · simp [evaluateDecision, specVerdict, reportedScore, Verdict.str, h1]
  · by_cases h2 : input.action ∈ APPROVAL_REQUIRED_ACTIONS
    · simp [evaluateDecision, specVerdict, reportedScore, Verdict.str, h1, h2]
    · by_cases h3 : 8 ≤ calculateRiskScore input
      · simp [evaluateDecision, specVerdict, reportedScore, Verdict.str, h1, h2, h3]
      · by_cases h4 : 5 ≤ calculateRiskScore input
        · simp [evaluateDecision, specVerdict, reportedScore, Verdict.str, h1, h2, h3, h4]
        · simp [evaluateDecision, specVerdict, reportedScore, Verdict.str, h1, h2, h3, h4]

/-- C8: decision evaluation is pure and deterministic — two evaluations of
the same proposal return the same verdict and risk score whatever the
instants; the fingerprint is the digest of the canonical payload of the
proposal, the verdict and the instant (so nothing else influences it); and at
the same instant the two evaluations agree on everything, fingerprint
included. -/
theorem evaluateDecision_deterministic (hashFn : String → String)
    (input : DecisionInput) (t₁ t₂ : Nat) :
    (evaluateDecision hashFn input t₁).verdict
      = (evaluateDecision hashFn input t₂).verdict ∧
    (evaluateDecision hashFn input t₁).risk_score
      = (evaluateDecision hashFn input t₂).risk_score ∧
    (evaluateDecision hashFn input t₁).decision_hash
      = computeDecisionHash hashFn input
          ((evaluateDecision hashFn input t₁).verdict).str t₁ ∧
    (t₁ = t₂ →
      evaluateDecision hashFn input t₁ = evaluateDecision hashFn input t₂) := by
  obtain ⟨hv1, hs1, hh1, _⟩ := evaluateDecision_fields hashFn input t₁
  obtain ⟨hv2, hs2, _, _⟩ := evaluateDecision_fields hashFn input t₂
  refine ⟨by rw [hv1, hv2], by rw [hs1, hs2], by rw [hh1, hv1], fun h => by rw [h]⟩

/-- Concrete proposal for the C8 witness. -/
def inputDetW : DecisionInput :=
  { action := "read_config", resource := "/app/config.json",
    arguments := [("file", "/app/config.json")],
    metadata := { source := "openclaw", timestamp := 5, session_id := none } }

/-- Witness for C8: two evaluations of the same proposal at the same instant
agree on verdict, risk score and fingerprint. -/
theorem evaluateDecision_deterministic_witness :
    evaluateDecision id inputDetW 5 = evaluateDecision id inputDetW 5 :=
  (evaluateDecision_deterministic id inputDetW 5 5).2.2.2 rfl

/-- Reference verdict tally over a decision log, from the spec's words. -/
def specTally (v : Verdict) (log : List LogRecord) : Nat :=
  (log.filter (fun d => d.decision == v)).length

/-- Reference success tally recomputed over ALLOW entries, from the spec's
words. -/
def specAllowSuccessTally (log : List LogRecord) : Nat :=
  (log.filter (fun d =>
    d.decision == .ALLOW && d.execution_result == some .success)).length

/-- Reference error tally recomputed over ALLOW entries, from the spec's
words. -/
def specAllowErrorTally (log : List LogRecord) : Nat :=
  (log.filter (fun d =>
    d.decision == .ALLOW && d.execution_result == some .error)).length

/-- A log every entry of which satisfies the logger's shape: non-ALLOW
records carry a null `execution_result`.  `DecisionLogger.logDecision` only
ever writes such records (`logDecision_wellFormed` below), so the log file
the generator reads is of this shape. -/
def WellFormedLog (log : List LogRecord) : Prop :=
  ∀ d ∈ log, d.decision ≠ .ALLOW → d.execution_result = none

/-- Helper: every record `DecisionLogger.logDecision` writes satisfies the
shape assumed of the generator's source log. -/
theorem logDecision_wellFormed (hashFn : String → String)
    (now input policyId : String) (decision : Verdict)
    (executionResult : Option ExecOutcome) (log : List LogRecord)
    (hwf : WellFormedLog log) :
    WellFormedLog
      (logDecisionAppend hashFn now input policyId decision executionResult log) := by
  intro d hd hne
  rcases List.mem_append.mp hd with hmem | hmem
  · exact hwf d hmem hne
  · rcases List.mem_singleton.mp hmem with rfl
    cases decision <;> simp_all [logDecision, logDecisionAppend]

/-- C9: the aggregated counts of a generated manifest equal the counts
obtained by independently tallying the source log that was read, with the
execution success/error tallies recomputed over ALLOW entries — for every
log of the shape the decision logger writes. -/
theorem generateManifest_counts_match_log (genAt sessionId logFile : String)
    (log : List LogRecord) (hwf : WellFormedLog log) :
    (generateManifest genAt sessionId logFile log).total_decisions = log.length ∧
    (generateManifest genAt sessionId logFile log).stop_count = specTally .STOP log ∧
    (generateManifest genAt sessionId logFile log).hold_count = specTally .HOLD log ∧
    (generateManifest genAt sessionId logFile log).allow_count = specTally .ALLOW log ∧
    (generateManifest genAt sessionId logFile log).execution_success_count
      = specAllowSuccessTally log ∧
    (generateManifest genAt sessionId logFile log).execution_error_count
      = specAllowErrorTally log := by
  refine ⟨rfl, rfl, rfl, rfl, ?_, ?_⟩
  · show (log.filter (fun d => d.execution_result == some .success)).length
        = specAllowSuccessTally log
    unfold specAllowSuccessTally
    congr 1
    apply List.filter_congr
    intro d hd
    by_cases ha : d.decision = .ALLOW
    · simp [ha]
    · simp [hwf d hd ha, ha]
  · show (log.filter (fun d => d.execution_result == some .error)).length
        = specAllowErrorTally log
    unfold specAllowErrorTally
    congr 1
    apply List.filter_congr
    intro d hd
    by_cases ha : d.decision = .ALLOW
    · simp [ha]
    · simp [hwf d hd ha, ha]

/-- Concrete three-entry log (STOP, ALLOW/success, ALLOW/error) for the C9
witness, written through the logger itself. -/
def manifestLogW : List LogRecord :=
  logDecisionAppend id "t2" "in2" "policy-v1" .ALLOW (some .error)
    (logDecisionAppend id "t1" "in1" "policy-v1" .ALLOW (some .success)
      (logDecisionAppend id "t0" "in0" "policy-v1" .STOP none []))

/-- Witness for C9 on a concrete logger-written log. -/
theorem generateManifest_counts_match_log_witness :
    WellFormedLog manifestLogW ∧
    (generateManifest "g" "s" "decision_log.jsonl" manifestLogW).total_decisions = 3 ∧
    (generateManifest "g" "s" "decision_log.jsonl" manifestLogW).stop_count
      = specTally .STOP manifestLogW ∧
    (generateManifest "g" "s" "decision_log.jsonl" manifestLogW).execution_success_count
      = specAllowSuccessTally manifestLogW ∧
    (generateManifest "g" "s" "decision_log.jsonl" manifestLogW).execution_error_count
      = specAllowErrorTally manifestLogW := by
  have hwf : WellFormedLog manifestLogW := by
    unfold WellFormedLog
    decide
  have h := generateManifest_counts_match_log "g" "s" "decision_log.jsonl"
    manifestLogW hwf
  exact ⟨hwf, by decide, h.2.1, h.2.2.2.2.1, h.2.2.2.2.2⟩

/-- C1: for every proposal dispatched through `receiveToolCall`, a STOP or
HOLD result carries no `execute` member on any code path, and an ALLOW result
carries an `execute` function whose invocation produces a trace with exactly
one executor-collaborator call, made with the context bound from the
payload. -/
theorem receiveToolCall_capability_invariant (hashFn : String → String)
    (payload : OpenClawToolCall) (ts : Nat) (log : List OpenClawLogEntry) :
    (((receiveToolCall hashFn payload ts log).1.verdict = .STOP ∨
      (receiveToolCall hashFn payload ts log).1.verdict = .HOLD) →
      (receiveToolCall hashFn payload ts log).1.getExecute = none) ∧
    ((receiveToolCall hashFn payload ts log).1.verdict = .ALLOW →
      ∃ f, (receiveToolCall hashFn payload ts log).1.getExecute = some f ∧
        ∀ u : Unit, (f u).2 =
            [⟨payload.tool_name, payload.arguments,
              some ⟨"openclaw", ts, none⟩⟩] ∧
          ((f u).2).length = 1) := by
  cases hv : (evaluateDecision hashFn (toDecisionInput payload ts) ts).verdict <;>
    simp [receiveToolCall, hv, handleStopVerdict, handleHoldVerdict, handleAllowVerdict,
      DecisionResult.getExecute, DecisionResult.verdict, createExecutionFunction,
      executeAction, logOpenClawDecision]

/-- Concrete block-listed payload for the C1 witness. -/
def stopPayloadW : OpenClawToolCall :=
  { tool_name := "rm_rf", arguments := [("path", "/srv/data")], metadata := none }

/-- Concrete low-risk payload for the C1 witness. -/
def allowPayloadW : OpenClawToolCall :=
  { tool_name := "read_config", arguments := [("file", "/app/config.json")],
    metadata := none }

/-- Witness for C1: a STOP dispatch yields no `execute` member; an ALLOW
dispatch yields one whose invocation reaches the executor exactly once. -/
theorem receiveToolCall_capability_invariant_witness :
    (receiveToolCall id stopPayloadW 0 []).1.getExecute = none ∧
    ∃ f, (receiveToolCall id allowPayloadW 0 []).1.getExecute = some f ∧
      ∀ u : Unit, (f u).2 =
          [⟨allowPayloadW.tool_name, allowPayloadW.arguments,
            some ⟨"openclaw", 0, none⟩⟩] ∧
        ((f u).2).length = 1 := by
  constructor
  · exact (receiveToolCall_capability_invariant id stopPayloadW 0 []).1
      (Or.inl (by decide))
  · exact (receiveToolCall_capability_invariant id allowPayloadW 0 []).2 (by decide)

/-- C4: every dispatch through `receiveToolCall`, whatever the verdict,
returns with the decision log extended by exactly one audit record carrying
this decision, and the capability handed back is built from the value the
log append returned (its `proof_path`), so the record is persisted before the
capability exists. -/
theorem receiveToolCall_audits_every_decision (hashFn : String → String)
    (payload : OpenClawToolCall) (ts : Nat) (log : List OpenClawLogEntry) :
    ∃ e : OpenClawLogEntry,
      (receiveToolCall hashFn payload ts log).2 = log ++ [e] ∧
      e.input = toDecisionInput payload ts ∧
      e.decision = evaluateDecision hashFn (toDecisionInput payload ts) ts ∧
      e.logged_at = ts ∧
      ((receiveToolCall hashFn payload ts log).2).length = log.length + 1 ∧
      (receiveToolCall hashFn payload ts log).1.proof_path = PROOF_MANIFEST_PATH ∧
      (receiveToolCall hashFn payload ts log).1.decision_hash
        = (evaluateDecision hashFn (toDecisionInput payload ts) ts).decision_hash := by
  cases hv : (evaluateDecision hashFn (toDecisionInput payload ts) ts).verdict <;>
    simp [receiveToolCall, hv, handleStopVerdict, handleHoldVerdict, handleAllowVerdict,
      logOpenClawDecision, DecisionResult.proof_path, DecisionResult.decision_hash]

/-- Raw payload with a missing action (C6). -/
def rawNoActionW : RawToolCall :=
  { tool_name := none, arguments := some [("file", "/tmp/notes.txt")],
    metadata := none }

/-- C6 counterexample: a proposal missing its action is *not* rejected before
classification — the dispatch completes with a verdict, and an audit record
is written for it. -/
theorem missing_action_not_rejected_cex :
    (∃ r : DecisionResult, (receiveToolCallRaw id rawNoActionW 0 []).1 = .ok r) ∧
    ((receiveToolCallRaw id rawNoActionW 0 []).2).length = 1 := by
  exact ⟨⟨_, rfl⟩, rfl⟩

/-- C6 amended: a proposal missing its arguments fails with a runtime
TypeError raised inside resource extraction, before classification and before
any audit write, leaving the log unchanged; a proposal missing (only) its
action is not rejected — it is evaluated like an ordinary unlisted action,
the dispatch succeeds, and exactly one audit record is written for it. -/
theorem malformed_proposal_dispatch (hashFn : String → String)
    (payload : RawToolCall) (ts : Nat) (log : List RawLogEntry) :
    (payload.arguments = none →
      receiveToolCallRaw hashFn payload ts log = (.error .typeError, log)) ∧
    (payload.tool_name = none →
      ∀ as : Args, payload.arguments = some as →
        ((receiveToolCallRaw hashFn payload ts log).1).isOk = true ∧
        ((receiveToolCallRaw hashFn payload ts log).2).length = log.length + 1) := by
  constructor
  · intro h
    simp [receiveToolCallRaw, extractResourceRaw, h]
  · intro _ as hargs
    constructor <;>
      simp [receiveToolCallRaw, extractResourceRaw, hargs, Except.isOk, Except.toBool]

/-- Raw payload with missing arguments (C6 witness). -/
def rawNoArgsW : RawToolCall :=
  { tool_name := some "read_config", arguments := none, metadata := none }

/-- Witness for the amended C6 at concrete malformed payloads. -/
theorem malformed_proposal_dispatch_witness :
    receiveToolCallRaw id rawNoArgsW 7 [] = (.error .typeError, []) ∧
    ((receiveToolCallRaw id rawNoActionW 7 []).1).isOk = true ∧
    ((receiveToolCallRaw id rawNoActionW 7 []).2).length = 0 + 1 := by
  refine ⟨(malformed_proposal_dispatch id rawNoArgsW 7 []).1 rfl, ?_, ?_⟩
  · exact ((malformed_proposal_dispatch id rawNoActionW 7 []).2 rfl
      [("file", "/tmp/notes.txt")] rfl).1
  · exact ((malformed_proposal_dispatch id rawNoActionW 7 []).2 rfl
      [("file", "/tmp/notes.txt")] rfl).2

/-- The OpenClaw payload of the C7 scenario:
`execute_command` with `\x7bcommand: "sudo rm -rf /data"\x7d`. -/
def payloadCmdW : OpenClawToolCall :=
  { tool_name := "execute_command",
    arguments := [("command", "sudo rm -rf /data")], metadata := none }

/-- The engine input the adapter builds for the C7 scenario (no resource
field is present in the arguments, so the resource is `"unknown"`). -/
def inputCmdW : DecisionInput := toDecisionInput payloadCmdW 0

/-- C7 counterexample: on the `execute_command`/`sudo rm -rf /data` proposal
the verdict is not STOP and the risk score is below 8. -/
theorem execute_command_sudo_not_stop_cex :
    (evaluateDecision id inputCmdW 0).verdict ≠ .STOP ∧
    (evaluateDecision id inputCmdW 0).risk_score < 8 := by
  constructor
  · decide
  · decide

/-- C7 amended: the `execute_command`/`sudo rm -rf /data` proposal yields
verdict HOLD with risk score exactly 5, arising from the destructive (+3) and
privilege (+2) keyword hits alone (no credential, production or resource
hit). -/
theorem execute_command_sudo_hold_score5 :
    (evaluateDecision id inputCmdW 0).verdict = .HOLD ∧
    (evaluateDecision id inputCmdW 0).risk_score = 5 ∧
    destructiveHit (lowerStr (jsonStringifyArgs inputCmdW.arguments)) = true ∧
    privilegeHit (lowerStr (jsonStringifyArgs inputCmdW.arguments)) = true ∧
    credentialHit (lowerStr (jsonStringifyArgs inputCmdW.arguments)) = false ∧
    productionHit (lowerStr (jsonStringifyArgs inputCmdW.arguments)) = false ∧
    resourceHit inputCmdW.resource = false := by
  refine ⟨by decide, by decide, by decide, by decide, by decide, by decide, by decide⟩

end ExecRuntimeLab
